import Mathlib

/-!
Verification of the distributed-locks benchmark harness (`benchmark.py`).

The development shallowly embeds the program: the marker extraction performed
on fetched log text, the polling loop with its 60-second timeout, the
trial driver `run_benchmark` (reset, start, poll, teardown), and the sweep
driver `main`.  External effects (docker compose invocations, prints, sleeps)
are recorded as an explicit action trace; the log contents returned by each
poll and the wall-clock readings taken at each timeout check are supplied by
oracles, so theorems quantify over every possible behaviour of the backend.
-/

namespace DistLocks

/-- Characters of the pre-check substring `"TOTAL_TIME_MS:"` used by the
`in` test on the fetched log text. -/
def markerC : List Char := ("TOTAL_TIME_MS:").toList

/-- Characters of the literal part of the regular expression
`TOTAL_TIME_MS: (\d+)` (the marker followed by a single space). -/
def litC : List Char := ("TOTAL_TIME_MS: ").toList

/-- Decimal value of a digit run, as computed by Python `int` on the
captured group. -/
def digitsToNat (l : List Char) : Nat :=
  l.foldl (fun a c => a * 10 + (c.toNat - 48)) 0

/-- Attempt to match the regular expression `TOTAL_TIME_MS: (\d+)` anchored at
the head of `s`: the literal must be a prefix and at least one digit must
follow; the captured group is the maximal digit run (greedy `\d+`). -/
def matchAt (s : List Char) : Option Nat :=
  if litC.isPrefixOf s then
    match s.drop litC.length with
    | [] => none
    | c :: cs =>
      if c.isDigit then some (digitsToNat ((c :: cs).takeWhile Char.isDigit)) else none
  else none

/-- Leftmost search for `TOTAL_TIME_MS: (\d+)`, as `re.search` performs it:
try to match at each position from the left, returning the first success. -/
def searchTotalTime : List Char → Option Nat
  | [] => none
  | c :: cs =>
    match matchAt (c :: cs) with
    | some n => some n
    | none => searchTotalTime cs

/-- Substring containment, the semantics of Python `pat in s`. -/
def containsSub (pat : List Char) : List Char → Bool
  | [] => pat.isEmpty
  | c :: cs => pat.isPrefixOf (c :: cs) || containsSub pat cs

/-- The extraction the loop body performs on one fetched log text: the `in`
pre-check for `"TOTAL_TIME_MS:"`, then the regex search; the loop breaks with
a value exactly when this returns `some`. -/
def extractTotal (s : List Char) : Option Nat :=
  if containsSub markerC s then searchTotalTime s else none

/-- Relative difference of one report row:
`((red_time - lua_time) / lua_time * 100) if lua_time > 0 else 0`. -/
def percentDiff (luaT redT : Nat) : ℚ :=
  if 0 < luaT then (((redT : ℚ) - (luaT : ℚ)) / (luaT : ℚ)) * 100 else 0

/-- Left-justify in a field of `w` characters (Python `{:<w}`). -/
def padRight (s : String) (w : Nat) : String :=
  s ++ String.mk (List.replicate (w - s.length) ' ')

/-- Right-justify in a field of `w` characters (Python `{:>w}`). -/
def padLeft (s : String) (w : Nat) : String :=
  String.mk (List.replicate (w - s.length) ' ') ++ s

/-- Fixed-point rendering with two decimals (Python `{:.2f}` under exact
rational arithmetic): round to the nearest hundredth, ties to even. -/
def fmtFixed2 (q : ℚ) : String :=
  let x := q * 100
  let fl : Int := Int.floor x
  let fr : ℚ := x - (fl : ℚ)
  let n : Int :=
    if (1 : ℚ) / 2 < fr then fl + 1
    else if fr < (1 : ℚ) / 2 then fl
    else if fl % 2 = 0 then fl else fl + 1
  let m := n.natAbs
  let frac := m % 100
  (if n < 0 then "-" else "") ++ toString (m / 100) ++ "." ++
    (if frac < 10 then "0" ++ toString frac else toString frac)

/-- One printed report row:
`f"{count:<10} | {lua_time:<10} | {red_time:<15} | {diff:>8.2f}%"`. -/
def formatRow (count luaT redT : Nat) (d : ℚ) : String :=
  padRight (toString count) 10 ++ " | " ++ padRight (toString luaT) 10 ++ " | " ++
    padRight (toString redT) 15 ++ " | " ++ padLeft (fmtFixed2 d) 8 ++ "%"

/-- Process environments: a (copied) mapping from variable names to values. -/
abbrev EnvF := String → Option String

/-- Dictionary update `env[k] = v` on a copied environment. -/
def envSet (e : EnvF) (k v : String) : EnvF :=
  fun x => if x = k then some v else e x

/-- The key `NUM_CONSUMERS`. -/
def keyConsumers : String := "NUM_CONSUMERS"

/-- The key `WORK_DURATION`. -/
def keyWork : String := "WORK_DURATION"

/-- The environment passed to every backend invocation of one trial:
a copy of the host environment with `NUM_CONSUMERS` and `WORK_DURATION`
set to the decimal renderings of the trial parameters. -/
def trialEnv (host : EnvF) (consumers workDuration : Nat) : EnvF :=
  envSet (envSet host keyConsumers (toString consumers)) keyWork (toString workDuration)

/-- Outcome of one `subprocess.run` log fetch: `ok` carries the captured
standard output (any exit code; `capture_output` swallows failures), `exn`
models the invocation raising an exception (e.g. a missing executable). -/
inductive FetchOutcome where
  | ok (out : List Char)
  | exn

/-- Externally visible actions of the harness, in program order:
`docker compose --profile p down` (`composeDown`), `... up --build -d`
(`composeUp`), `docker compose logs service` (`composeLogs`), the one-second
`time.sleep(1)` (`sleepOne`), and a `print` (`echo`). -/
inductive Act where
  | composeDown (profile : String) (env : EnvF)
  | composeUp (profile : String) (env : EnvF)
  | composeLogs (service : String) (env : EnvF)
  | sleepOne
  | echo (msg : String)

/-- How the polling loop ended: marker parsed (`found`), 60-second budget
exceeded (`timedOut`), an exception propagated out of the loop body
(`raised`), or the model fuel ran out (`fuelOut`, a model artifact that the
theorems exclude by hypothesis). -/
inductive LoopExit where
  | found (n : Nat)
  | timedOut
  | raised
  | fuelOut
  deriving DecidableEq

/-- The diagnostic `print(f"Timeout waiting for {profile}")`. -/
def timeoutMsg (profile : String) : String := "Timeout waiting for " ++ profile

/-- The opening `print` of `run_benchmark`. -/
def introMsg (profile : String) (consumers workDuration : Nat) : String :=
  "Running benchmark for " ++ profile ++ " with " ++ toString consumers ++
    " consumers and " ++ toString workDuration ++ "ms work..."

/-- The `while True` polling loop.  `fetch k` is the outcome of the `k`-th
log fetch and `elapsed k` the value of `time.time() - start_time` read at the
`k`-th timeout check.  Per iteration: fetch the logs; if extraction succeeds
break with the value; otherwise if more than 60 seconds have elapsed print
the diagnostic and break; otherwise sleep one second and retry. -/
def pollLoop (fetch : Nat → FetchOutcome) (elapsed : Nat → ℚ)
    (service profile : String) (env : EnvF) : Nat → Nat → List Act × LoopExit
  | 0, _ => ([], LoopExit.fuelOut)
  | fuel + 1, k =>
    match fetch k with
    | FetchOutcome.exn => ([Act.composeLogs service env], LoopExit.raised)
    | FetchOutcome.ok out =>
      match extractTotal out with
      | some n => ([Act.composeLogs service env], LoopExit.found n)
      | none =>
        if (60 : ℚ) < elapsed k then
          ([Act.composeLogs service env, Act.echo (timeoutMsg profile)], LoopExit.timedOut)
        else
          let rest := pollLoop fetch elapsed service profile env fuel (k + 1)
          (Act.composeLogs service env :: Act.sleepOne :: rest.1, rest.2)

/-- One trial, `run_benchmark(profile, consumers, work_duration)`: print the
intro line, build the trial environment, `down` (defensive reset), `up`
(start), run the polling loop, and — when the loop body did not raise —
`down` again (teardown).  The trace lists the actions performed; the exit
describes how polling ended. -/
def run_benchmark (host : EnvF) (fetch : Nat → FetchOutcome) (elapsed : Nat → ℚ)
    (profile : String) (consumers workDuration fuel : Nat) : List Act × LoopExit :=
  let env := trialEnv host consumers workDuration
  let service := "app-" ++ profile
  let p := pollLoop fetch elapsed service profile env fuel 0
  let pre := [Act.echo (introMsg profile consumers workDuration),
    Act.composeDown profile env, Act.composeUp profile env]
  let post : List Act :=
    match p.2 with
    | LoopExit.found _ => [Act.composeDown profile env]
    | LoopExit.timedOut => [Act.composeDown profile env]
    | _ => []
  (pre ++ p.1 ++ post, p.2)

/-- The value `run_benchmark` returns to the sweep: the parsed integer on a
match, the initial `total_time_ms = 0` on timeout, and nothing when an
exception propagated (the Python function never returns then). -/
def trialResult : LoopExit → Option Nat
  | LoopExit.found n => some n
  | LoopExit.timedOut => some 0
  | LoopExit.raised => none
  | LoopExit.fuelOut => none

/-- Behaviour of the external backend across the whole sweep: log-fetch
outcomes and clock readings indexed by profile, consumer count, and poll
number. -/
structure Backend where
  fetch : String → Nat → Nat → FetchOutcome
  elapsed : String → Nat → Nat → ℚ

/-- The profile identifier of the Lua variant. -/
def profileLua : String := "lua"

/-- The profile identifier of the Redlock variant. -/
def profileRed : String := "redlock"

/-- The body of `main`'s `for count in consumer_counts` loop: Lua trial,
then Redlock trial, then compute the difference and print the row; recurse
on the remaining counts.  Besides the trace it returns the report rows
`(count, lua_time, red_time, diff)` in emission order and a flag that is
`false` when a trial never returned (exception or fuel exhaustion). -/
def sweepLoop (host : EnvF) (B : Backend) (workDuration fuel : Nat) :
    List Nat → List Act × (List (Nat × Nat × Nat × ℚ) × Bool)
  | [] => ([], ([], true))
  | c :: rest =>
    let L := run_benchmark host (B.fetch profileLua c) (B.elapsed profileLua c)
      profileLua c workDuration fuel
    match trialResult L.2 with
    | none => (L.1, ([], false))
    | some luaT =>
      let R := run_benchmark host (B.fetch profileRed c) (B.elapsed profileRed c)
        profileRed c workDuration fuel
      match trialResult R.2 with
      | none => (L.1 ++ R.1, ([], false))
      | some redT =>
        let d := percentDiff luaT redT
        let rest' := sweepLoop host B workDuration fuel rest
        (L.1 ++ R.1 ++ Act.echo (formatRow c luaT redT d) :: rest'.1,
          ((c, luaT, redT, d) :: rest'.2.1, rest'.2.2))

/-- The hardcoded sweep grid `consumer_counts = [5, 10, 100, 200]`. -/
def consumer_counts : List Nat := [5, 10, 100, 200]

/-- The hardcoded `work_duration = 50`. -/
def work_duration : Nat := 50

/-- The table header line. -/
def headerLine : String :=
  padRight ("Consumers") 10 ++ " | " ++ padRight ("Lua (ms)") 10 ++ " | " ++
    padRight ("Redlock (ms)") 15 ++ " | " ++ padRight ("Diff (%)") 10

/-- The `"-" * 55` separator line. -/
def sepLine : String := String.mk (List.replicate 55 '-')

/-- The program entry point `main()`: print the header and run the sweep
over the hardcoded grid. -/
def main (host : EnvF) (B : Backend) (fuel : Nat) :
    List Act × (List (Nat × Nat × Nat × ℚ) × Bool) :=
  let s := sweepLoop host B work_duration fuel consumer_counts
  (Act.echo headerLine :: Act.echo sepLine :: s.1, s.2)

/-- The strings printed along a trace. -/
def outputs (t : List Act) : List String :=
  t.filterMap (fun a => match a with | Act.echo s => some s | _ => none)

/-- Number of `docker compose ... down` invocations in a trace. -/
def countDowns (t : List Act) : Nat :=
  t.countP (fun a => match a with | Act.composeDown _ _ => true | _ => false)

/-- Number of one-second sleeps in a trace. -/
def countSleeps (t : List Act) : Nat :=
  t.countP (fun a => match a with | Act.sleepOne => true | _ => false)

/-- The environment an action hands to the backend (`none` for sleeps and
prints, which involve no backend call). -/
def backendEnv : Act → Option EnvF
  | Act.composeDown _ e => some e
  | Act.composeUp _ e => some e
  | Act.composeLogs _ e => some e
  | _ => none

/-- An empty host environment used for concrete scenarios. -/
def host0 : EnvF := fun _ => none

/-- Clock oracle reading `k` seconds at the `k`-th timeout check: only the
one-second sleeps advance the clock, fetches are instantaneous. -/
def idElapsed : Nat → ℚ := fun k => (k : ℚ)

/-- Clock oracle stuck at zero. -/
def zeroElapsed : Nat → ℚ := fun _ => 0

/-- Fetch oracle whose every invocation raises. -/
def exnFetch : Nat → FetchOutcome := fun _ => FetchOutcome.exn

/-- Fetch oracle returning empty logs forever. -/
def emptyFetch : Nat → FetchOutcome := fun _ => FetchOutcome.ok []

/-- Fetch oracle whose logs immediately carry `TOTAL_TIME_MS: 7`. -/
def okFetch7 : Nat → FetchOutcome :=
  fun _ => FetchOutcome.ok (("TOTAL_TIME_MS: 7").toList)

/-- A log text whose marker pre-check passes but whose integer is
unparsable. -/
def malformedLog : List Char := ("TOTAL_TIME_MS: abc").toList

/-- Fetch oracle returning the malformed log forever. -/
def malformedFetch : Nat → FetchOutcome := fun _ => FetchOutcome.ok malformedLog

/-- Clock oracle that already reads past the timeout at the first check. -/
def lateElapsed : Nat → ℚ := fun _ => 100

/-- Backend whose every trial's first fetch already carries
`TOTAL_TIME_MS: 7`. -/
def okBackend : Backend where
  fetch := fun _ _ _ => FetchOutcome.ok (("TOTAL_TIME_MS: 7").toList)
  elapsed := fun _ _ _ => 0

/-- Backend of the concrete scenario of §8 of the specification: Lua logs
immediately carry `TOTAL_TIME_MS: 120`, Redlock logs `TOTAL_TIME_MS: 300`. -/
def scenarioBackend : Backend where
  fetch := fun p _ _ =>
    FetchOutcome.ok (if p = profileLua
      then ("TOTAL_TIME_MS: 120").toList else ("TOTAL_TIME_MS: 300").toList)
  elapsed := fun _ _ _ => 0

/-! ### Marker extraction (claim C2) -/

theorem matchAt_nil : matchAt [] = none := by decide

theorem append_isPrefixOf {u v t : List Char} (h : (u ++ v).isPrefixOf t = true) :
    u.isPrefixOf t = true := by
  induction u generalizing t with
  | nil => simp
  | cons a as ih =>
    cases t with
    | nil => simp at h
    | cons b bs =>
      simp only [List.cons_append, List.isPrefixOf_cons₂, Bool.and_eq_true, beq_iff_eq] at h ⊢
      exact ⟨h.1, ih h.2⟩

theorem matchAt_markerPre {t : List Char} {n : Nat} (h : matchAt t = some n) :
    markerC.isPrefixOf t = true := by
  by_cases hp : litC.isPrefixOf t = true
  · have h1 : (markerC ++ [' ']).isPrefixOf t = true := by
      rw [(by decide : markerC ++ [' '] = litC)]
      exact hp
    exact append_isPrefixOf h1
  · rw [matchAt, if_neg hp] at h
    exact absurd h (by simp)

theorem containsSub_of_isPrefixOf {pat : List Char} :
    ∀ (s : List Char) (i : Nat), pat.isPrefixOf (s.drop i) = true →
      containsSub pat s = true := by
  intro s
  induction s with
  | nil =>
    intro i h
    rw [List.drop_nil] at h
    cases pat with
    | nil => rfl
    | cons a as => simp at h
  | cons c cs ih =>
    intro i h
    cases i with
    | zero =>
      have h0 : pat.isPrefixOf (c :: cs) = true := h
      simp [containsSub, h0]
    | succ j =>
      have h1 : pat.isPrefixOf (cs.drop j) = true := h
      simp [containsSub, ih j h1]

theorem search_none : ∀ (s : List Char),
    (∀ i, i < s.length → matchAt (s.drop i) = none) → searchTotalTime s = none := by
  intro s
  induction s with
  | nil => intro _; rfl
  | cons c cs ih =>
    intro h
    have h0 : matchAt (c :: cs) = none := h 0 (by simp)
    have hrec := ih (fun i hi => h (i + 1) (by simpa using hi))
    simp only [searchTotalTime]
    rw [h0]
    exact hrec

theorem search_first : ∀ (s : List Char) (i n : Nat),
    matchAt (s.drop i) = some n → (∀ j, j < i → matchAt (s.drop j) = none) →
    searchTotalTime s = some n := by
  intro s
  induction s with
  | nil =>
    intro i n h _
    have h1 : matchAt ([] : List Char) = some n := by rw [List.drop_nil] at h; exact h
    rw [matchAt_nil] at h1
    exact absurd h1 (by simp)
  | cons c cs ih =>
    intro i n h hf
    cases i with
    | zero =>
      have h0 : matchAt (c :: cs) = some n := h
      simp only [searchTotalTime]
      rw [h0]
    | succ j =>
      have h0 : matchAt (c :: cs) = none := hf 0 (Nat.succ_pos _)
      have h1 : matchAt (cs.drop j) = some n := h
      have hf' : ∀ m, m < j → matchAt (cs.drop m) = none :=
        fun m hm => hf (m + 1) (Nat.succ_lt_succ hm)
      simp only [searchTotalTime]
      rw [h0]
      exact ih j n h1 hf'

/-- C2: given any fetched log text, if position `i` is the first (leftmost)
occurrence of `TOTAL_TIME_MS: <integer>` then extraction returns exactly the
integer matched there, and if no position matches the pattern extraction
returns `none` ("not yet found", so the loop continues) — never a false
match. -/
theorem C2_marker_extraction (s : List Char) :
    (∀ i n, matchAt (s.drop i) = some n → (∀ j, j < i → matchAt (s.drop j) = none) →
      extractTotal s = some n) ∧
    ((∀ i, i < s.length → matchAt (s.drop i) = none) → extractTotal s = none) := by
  constructor
  · intro i n h hf
    have hc : containsSub markerC s = true :=
      containsSub_of_isPrefixOf s i (matchAt_markerPre h)
    simp only [extractTotal]
    rw [if_pos hc]
    exact search_first s i n h hf
  · intro h
    have hs := search_none s h
    simp only [extractTotal]
    by_cases hc : containsSub markerC s = true
    · rw [if_pos hc]; exact hs
    · rw [if_neg hc]

/-- Witness for C2: the spec's example (`1234` surrounded by noise) extracts
to exactly `1234`, and markerless text extracts to `none`. -/
theorem C2_marker_extraction_w :
    extractTotal (("xx TOTAL_TIME_MS: 1234 yy").toList) = some 1234 ∧
    extractTotal (("no marker here").toList) = none :=
  ⟨(C2_marker_extraction (("xx TOTAL_TIME_MS: 1234 yy").toList)).1 3 1234
      (by decide) (by decide),
    (C2_marker_extraction (("no marker here").toList)).2 (by decide)⟩

/-! ### Percent difference (claim C5) -/

/-- C5: the per-row difference equals `(redlockResult - luaResult) /
luaResult * 100` whenever `luaResult > 0` and equals `0` when
`luaResult = 0`; being a total function on all pairs, it faults on no
input. -/
theorem C5_percent_diff (luaT redT : Nat) :
    (0 < luaT → percentDiff luaT redT = (((redT : ℚ) - (luaT : ℚ)) / (luaT : ℚ)) * 100) ∧
    (luaT = 0 → percentDiff luaT redT = 0) := by
  constructor
  · intro h; simp [percentDiff, h]
  · intro h; simp [percentDiff, h]

/-- Witness for C5: the zero guard at `luaResult = 0`, `redlockResult = 7`,
and the formula at `120`, `300`. -/
theorem C5_percent_diff_w :
    percentDiff 0 7 = 0 ∧
    percentDiff 120 300 = ((((300 : Nat) : ℚ) - ((120 : Nat) : ℚ)) / ((120 : Nat) : ℚ)) * 100 :=
  ⟨(C5_percent_diff 0 7).2 rfl, (C5_percent_diff 120 300).1 (by decide)⟩

/-! ### Polling loop lemmas -/

theorem pollLoop_noMarker (fetch : Nat → FetchOutcome) (elapsed : Nat → ℚ)
    (service profile : String) (env : EnvF)
    (hf : ∀ k, ∃ out, fetch k = FetchOutcome.ok out ∧ extractTotal out = none)
    (he : ∀ k, elapsed k = (k : ℚ)) :
    ∀ fuel j, 1 ≤ fuel → 62 ≤ fuel + j →
      (pollLoop fetch elapsed service profile env fuel j).2 = LoopExit.timedOut ∧
      countSleeps (pollLoop fetch elapsed service profile env fuel j).1 = 61 - j ∧
      timeoutMsg profile ∈ outputs (pollLoop fetch elapsed service profile env fuel j).1 := by
  intro fuel
  induction fuel with
  | zero => intro j h1 _; omega
  | succ fuel ih =>
    intro j _ h62
    obtain ⟨out, hfo, hex⟩ := hf j
    simp only [pollLoop, hfo, hex, he j]
    by_cases hj : 61 ≤ j
    · have hjn : (60 : Nat) < j := by omega
      have hlt : (60 : ℚ) < (j : ℚ) := by exact_mod_cast hjn
      rw [if_pos hlt]
      refine ⟨rfl, ?_, ?_⟩
      · have hcs : countSleeps [Act.composeLogs service env,
            Act.echo (timeoutMsg profile)] = 0 := rfl
        rw [hcs]; omega
      · simp [outputs]
    · have hj60 : j ≤ 60 := by omega
      have hle : (j : ℚ) ≤ (60 : ℚ) := by exact_mod_cast hj60
      have hlt : ¬ (60 : ℚ) < (j : ℚ) := not_lt.mpr hle
      rw [if_neg hlt]
      have ihj := ih (j + 1) (by omega) (by omega)
      refine ⟨ihj.1, ?_, ?_⟩
      · have h1 := ihj.2.1
        simp [countSleeps, List.countP_cons] at h1 ⊢
        omega
      · have h2 := ihj.2.2
        simp only [outputs, List.filterMap_cons] at h2 ⊢
        exact h2

theorem pollLoop_downs (fetch : Nat → FetchOutcome) (elapsed : Nat → ℚ)
    (service profile : String) (env : EnvF) :
    ∀ fuel j, countDowns (pollLoop fetch elapsed service profile env fuel j).1 = 0 := by
  intro fuel
  induction fuel with
  | zero => intro j; rfl
  | succ fuel ih =>
    intro j
    cases hfo : fetch j with
    | exn => simp only [pollLoop, hfo]; rfl
    | ok out =>
      cases hex : extractTotal out with
      | some n => simp only [pollLoop, hfo, hex]; rfl
      | none =>
        simp only [pollLoop, hfo, hex]
        by_cases hlt : (60 : ℚ) < elapsed j
        · rw [if_pos hlt]; rfl
        · rw [if_neg hlt]
          simpa [countDowns, List.countP_cons] using ih (j + 1)

theorem pollLoop_shape (fetch : Nat → FetchOutcome) (elapsed : Nat → ℚ)
    (service profile : String) (env : EnvF) :
    ∀ fuel j a, a ∈ (pollLoop fetch elapsed service profile env fuel j).1 →
      a = Act.composeLogs service env ∨ a = Act.sleepOne ∨
        a = Act.echo (timeoutMsg profile) := by
  intro fuel
  induction fuel with
  | zero => intro j a ha; exact absurd ha (by simp [pollLoop])
  | succ fuel ih =>
    intro j a
    cases hfo : fetch j with
    | exn =>
      simp only [pollLoop, hfo]
      intro ha; simp at ha; exact Or.inl ha
    | ok out =>
      cases hex : extractTotal out with
      | some n =>
        simp only [pollLoop, hfo, hex]
        intro ha; simp at ha; exact Or.inl ha
      | none =>
        simp only [pollLoop, hfo, hex]
        by_cases hlt : (60 : ℚ) < elapsed j
        · rw [if_pos hlt]
          intro ha
          simp at ha
          rcases ha with h | h
          · exact Or.inl h
          · exact Or.inr (Or.inr h)
        · rw [if_neg hlt]
          intro ha
          simp at ha
          rcases ha with h | h | h
          · exact Or.inl h
          · exact Or.inr (Or.inl h)
          · exact ih (j + 1) a h

/-- A first fetch that already carries the marker ends the loop at once. -/
theorem pollLoop_found_first (fetch : Nat → FetchOutcome) (elapsed : Nat → ℚ)
    (service profile : String) (env : EnvF) (fuel k : Nat) (out : List Char) (n : Nat)
    (hfu : 1 ≤ fuel) (h0 : fetch k = FetchOutcome.ok out) (hx : extractTotal out = some n) :
    pollLoop fetch elapsed service profile env fuel k =
      ([Act.composeLogs service env], LoopExit.found n) := by
  cases fuel with
  | zero => omega
  | succ f => simp [pollLoop, h0, hx]

/-! ### Trial-level lemmas -/

theorem run_benchmark_snd (host : EnvF) (fetch : Nat → FetchOutcome) (elapsed : Nat → ℚ)
    (profile : String) (consumers workDuration fuel : Nat) :
    (run_benchmark host fetch elapsed profile consumers workDuration fuel).2 =
      (pollLoop fetch elapsed ("app-" ++ profile) profile
        (trialEnv host consumers workDuration) fuel 0).2 := rfl

theorem run_benchmark_fst (host : EnvF) (fetch : Nat → FetchOutcome) (elapsed : Nat → ℚ)
    (profile : String) (consumers workDuration fuel : Nat) :
    (run_benchmark host fetch elapsed profile consumers workDuration fuel).1 =
      [Act.echo (introMsg profile consumers workDuration),
        Act.composeDown profile (trialEnv host consumers workDuration),
        Act.composeUp profile (trialEnv host consumers workDuration)] ++
      (pollLoop fetch elapsed ("app-" ++ profile) profile
        (trialEnv host consumers workDuration) fuel 0).1 ++
      (match (pollLoop fetch elapsed ("app-" ++ profile) profile
          (trialEnv host consumers workDuration) fuel 0).2 with
        | LoopExit.found _ =>
          [Act.composeDown profile (trialEnv host consumers workDuration)]
        | LoopExit.timedOut =>
          [Act.composeDown profile (trialEnv host consumers workDuration)]
        | _ => []) := rfl

theorem run_noMarker (host : EnvF) (fetch : Nat → FetchOutcome) (elapsed : Nat → ℚ)
    (profile : String) (consumers workDuration fuel : Nat)
    (hf : ∀ k, ∃ out, fetch k = FetchOutcome.ok out ∧ extractTotal out = none)
    (he : ∀ k, elapsed k = (k : ℚ)) (hfu : 62 ≤ fuel) :
    (run_benchmark host fetch elapsed profile consumers workDuration fuel).2 =
      LoopExit.timedOut ∧
    trialResult (run_benchmark host fetch elapsed profile consumers workDuration fuel).2 =
      some 0 ∧
    timeoutMsg profile ∈
      outputs (run_benchmark host fetch elapsed profile consumers workDuration fuel).1 := by
  have hp := pollLoop_noMarker fetch elapsed ("app-" ++ profile) profile
    (trialEnv host consumers workDuration) hf he fuel 0 (by omega) (by omega)
  refine ⟨?_, ?_, ?_⟩
  · rw [run_benchmark_snd]; exact hp.1
  · rw [run_benchmark_snd, hp.1]; rfl
  · rw [run_benchmark_fst]
    simp only [outputs, List.filterMap_append, List.mem_append]
    refine Or.inl (Or.inr ?_)
    simpa only [outputs] using hp.2.2

theorem countDowns_append (a b : List Act) :
    countDowns (a ++ b) = countDowns a + countDowns b :=
  List.countP_append _ _ _

/-! ### Claims about the polling timeout (C3, C4, C9) -/

/-- C3: if the completion marker never appears in any fetched log text, the
polling loop terminates with a timeout rather than looping forever, and —
measuring wall-clock time as the number of one-second sleeps, under the
idealized clock `elapsed k = k` in which fetches and scans are
instantaneous — it sleeps at most 61 seconds: the 60-second timeout plus
one 1-second poll interval. -/
theorem C3_timeout_bound (fetch : Nat → FetchOutcome) (elapsed : Nat → ℚ)
    (service profile : String) (env : EnvF) (fuel : Nat)
    (hf : ∀ k, ∃ out, fetch k = FetchOutcome.ok out ∧ extractTotal out = none)
    (he : ∀ k, elapsed k = (k : ℚ)) (hfu : 62 ≤ fuel) :
    (pollLoop fetch elapsed service profile env fuel 0).2 = LoopExit.timedOut ∧
    countSleeps (pollLoop fetch elapsed service profile env fuel 0).1 ≤ 61 := by
  have h := pollLoop_noMarker fetch elapsed service profile env hf he fuel 0
    (by omega) (by omega)
  refine ⟨h.1, ?_⟩
  have h2 := h.2.1
  omega

/-- Witness for C3: a backend whose logs stay empty forever times out after
exactly 61 sleeps. -/
theorem C3_timeout_bound_w :
    (pollLoop emptyFetch idElapsed ("app-lua") ("lua") host0 62 0).2 =
      LoopExit.timedOut ∧
    countSleeps (pollLoop emptyFetch idElapsed ("app-lua") ("lua") host0 62 0).1 ≤ 61 :=
  C3_timeout_bound emptyFetch idElapsed ("app-lua") ("lua") host0 62
    (fun _ => ⟨[], rfl, rfl⟩) (fun _ => rfl) (by omega)

theorem sweepLoop_ok (host : EnvF) (B : Backend) (workDuration fuel : Nat)
    (hok : ∀ p c, trialResult (run_benchmark host (B.fetch p c) (B.elapsed p c)
      p c workDuration fuel).2 ≠ none) :
    ∀ counts : List Nat,
      (sweepLoop host B workDuration fuel counts).2.2 = true ∧
      ((sweepLoop host B workDuration fuel counts).2.1).map (fun r => r.1) = counts := by
  intro counts
  induction counts with
  | nil => exact ⟨rfl, rfl⟩
  | cons c rest ih =>
    cases hL : trialResult (run_benchmark host (B.fetch profileLua c)
        (B.elapsed profileLua c) profileLua c workDuration fuel).2 with
    | none => exact absurd hL (hok profileLua c)
    | some luaT =>
      cases hR : trialResult (run_benchmark host (B.fetch profileRed c)
          (B.elapsed profileRed c) profileRed c workDuration fuel).2 with
      | none => exact absurd hR (hok profileRed c)
      | some redT =>
        simp only [sweepLoop, hL, hR]
        exact ⟨ih.1, by simp [ih.2]⟩

/-- C4: a trial whose marker never appears exceeds the 60-second budget,
prints the diagnostic naming the variant that timed out, and returns 0 as
its result; and the sweep never aborts: whenever every trial returns a value
(and timed-out trials do return 0), the sweep still produces one report row
per configured concurrency level. -/
theorem C4_timeout_degraded :
    (∀ (host : EnvF) (fetch : Nat → FetchOutcome) (elapsed : Nat → ℚ)
        (profile : String) (consumers workDuration fuel : Nat),
      (∀ k, ∃ out, fetch k = FetchOutcome.ok out ∧ extractTotal out = none) →
      (∀ k, elapsed k = (k : ℚ)) → 62 ≤ fuel →
      trialResult (run_benchmark host fetch elapsed profile consumers
        workDuration fuel).2 = some 0 ∧
      timeoutMsg profile ∈ outputs (run_benchmark host fetch elapsed profile
        consumers workDuration fuel).1) ∧
    (∀ (host : EnvF) (B : Backend) (workDuration fuel : Nat) (counts : List Nat),
      (∀ p c, trialResult (run_benchmark host (B.fetch p c) (B.elapsed p c)
        p c workDuration fuel).2 ≠ none) →
      (sweepLoop host B workDuration fuel counts).2.2 = true ∧
      ((sweepLoop host B workDuration fuel counts).2.1).length = counts.length) := by
  constructor
  · intro host fetch elapsed profile consumers workDuration fuel hf he hfu
    have h := run_noMarker host fetch elapsed profile consumers workDuration fuel hf he hfu
    exact ⟨h.2.1, h.2.2⟩
  · intro host B workDuration fuel counts hok
    have h := sweepLoop_ok host B workDuration fuel hok counts
    refine ⟨h.1, ?_⟩
    have hlen := congrArg List.length h.2
    simpa using hlen

/-- Witness for C4: an always-empty-log trial returns 0 with the Lua
diagnostic printed, and a two-level sweep over an always-succeeding backend
emits two rows. -/
theorem C4_timeout_degraded_w :
    trialResult (run_benchmark host0 emptyFetch idElapsed ("lua") 5 50 62).2 = some 0 ∧
    timeoutMsg ("lua") ∈
      outputs (run_benchmark host0 emptyFetch idElapsed ("lua") 5 50 62).1 ∧
    (sweepLoop host0 okBackend 50 62 [5, 10]).2.2 = true ∧
    ((sweepLoop host0 okBackend 50 62 [5, 10]).2.1).length = 2 := by
  have h1 := C4_timeout_degraded.1 host0 emptyFetch idElapsed ("lua") 5 50 62
    (fun _ => ⟨[], rfl, rfl⟩) (fun _ => rfl) (by omega)
  have h2 := C4_timeout_degraded.2 host0 okBackend 50 62 [5, 10] (fun p c => by
    rw [run_benchmark_snd, pollLoop_found_first (okBackend.fetch p c)
      (okBackend.elapsed p c) ("app-" ++ p) p (trialEnv host0 c 50) 62 0
      (("TOTAL_TIME_MS: 7").toList) 7 (by omega) rfl (by decide)]
    simp [trialResult])
  exact ⟨h1.1, h1.2, h2.1, h2.2⟩

/-- C9: the loop scans the fetched logs before it ever consults the clock:
if the very first fetch already contains the marker with value `n`, the
trial exits successfully with `n` for every possible clock oracle — in
particular when more than 60 seconds have already elapsed at the first
check — and its only print is the intro line, so no timeout diagnostic is
emitted. -/
theorem C9_scan_before_timeout (host : EnvF) (fetch : Nat → FetchOutcome)
    (elapsed : Nat → ℚ) (profile : String) (consumers workDuration fuel : Nat)
    (out : List Char) (n : Nat) (hfu : 1 ≤ fuel)
    (h0 : fetch 0 = FetchOutcome.ok out) (hx : extractTotal out = some n) :
    (run_benchmark host fetch elapsed profile consumers workDuration fuel).2 =
      LoopExit.found n ∧
    trialResult (run_benchmark host fetch elapsed profile consumers
      workDuration fuel).2 = some n ∧
    outputs (run_benchmark host fetch elapsed profile consumers workDuration fuel).1 =
      [introMsg profile consumers workDuration] := by
  have hp := pollLoop_found_first fetch elapsed ("app-" ++ profile) profile
    (trialEnv host consumers workDuration) fuel 0 out n hfu h0 hx
  refine ⟨?_, ?_, ?_⟩
  · rw [run_benchmark_snd, hp]
  · rw [run_benchmark_snd, hp]; rfl
  · rw [run_benchmark_fst, hp]
    simp [outputs]

/-- Witness for C9: first fetch carries `TOTAL_TIME_MS: 7` while the clock
already reads 100 seconds; the trial still returns 7. -/
theorem C9_scan_before_timeout_w :
    (run_benchmark host0 okFetch7 lateElapsed ("lua") 5 50 62).2 = LoopExit.found 7 ∧
    trialResult (run_benchmark host0 okFetch7 lateElapsed ("lua") 5 50 62).2 = some 7 ∧
    outputs (run_benchmark host0 okFetch7 lateElapsed ("lua") 5 50 62).1 =
      [introMsg ("lua") 5 50] :=
  C9_scan_before_timeout host0 okFetch7 lateElapsed ("lua") 5 50 62
    (("TOTAL_TIME_MS: 7").toList) 7 (by omega) rfl (by decide)

/-! ### Teardown (claim C1) -/

/-- C1 (amended): teardown after the polling phase is invoked exactly once
whenever the polling phase completes, on success and on timeout alike — the
trial trace then contains exactly two `docker compose down` invocations, the
defensive reset plus the one teardown; but on the exit path where the
polling loop raises, the exception propagates out of the trial and teardown
is not invoked (only the reset's `down` is in the trace). -/
theorem C1_teardown (host : EnvF) (fetch : Nat → FetchOutcome) (elapsed : Nat → ℚ)
    (profile : String) (consumers workDuration fuel : Nat) :
    (((run_benchmark host fetch elapsed profile consumers workDuration fuel).2 =
        LoopExit.timedOut ∨
      (∃ n, (run_benchmark host fetch elapsed profile consumers workDuration fuel).2 =
        LoopExit.found n)) →
      countDowns (run_benchmark host fetch elapsed profile consumers
        workDuration fuel).1 = 2) ∧
    ((run_benchmark host fetch elapsed profile consumers workDuration fuel).2 =
        LoopExit.raised →
      countDowns (run_benchmark host fetch elapsed profile consumers
        workDuration fuel).1 = 1) := by
  have hd := pollLoop_downs fetch elapsed ("app-" ++ profile) profile
    (trialEnv host consumers workDuration) fuel 0
  constructor
  · intro h
    rw [run_benchmark_snd] at h
    rcases h with h | ⟨n, h⟩
    · rw [run_benchmark_fst, h, countDowns_append, countDowns_append, hd]
      rfl
    · rw [run_benchmark_fst, h, countDowns_append, countDowns_append, hd]
      rfl
  · intro h
    rw [run_benchmark_snd] at h
    rw [run_benchmark_fst, h, countDowns_append, countDowns_append, hd]
    rfl

/-- Witness for C1's amended theorem: a successful trial's trace has exactly
two `down` invocations. -/
theorem C1_teardown_w :
    countDowns (run_benchmark host0 okFetch7 zeroElapsed ("lua") 5 50 62).1 = 2 :=
  (C1_teardown host0 okFetch7 zeroElapsed ("lua") 5 50 62).1 (Or.inr ⟨7, by decide⟩)

/-- C1 counterexample: when the first log fetch raises, the exception
propagates (`raised` exit) and only the initial reset's `down` is in the
trace — teardown after the polling phase is never invoked, refuting the
claim's "even when the polling loop raises" clause. -/
theorem C1_cex :
    (run_benchmark host0 exnFetch zeroElapsed ("lua") 5 50 62).2 = LoopExit.raised ∧
    countDowns (run_benchmark host0 exnFetch zeroElapsed ("lua") 5 50 62).1 = 1 := by
  decide

/-! ### Malformed completion line (claim C6) -/

/-- C6 (amended): when fetched log text contains the marker text
`TOTAL_TIME_MS:` but the integer that follows is unparsable, the regular
expression simply fails to match: nothing raises, the loop keeps polling,
and the trial takes the ordinary timeout path, returning 0 like any
timed-out trial. -/
theorem C6_malformed (host : EnvF) (profile : String)
    (consumers workDuration fuel : Nat) (s : List Char) (hfu : 62 ≤ fuel)
    (hc : containsSub markerC s = true) (hn : searchTotalTime s = none) :
    (run_benchmark host (fun _ => FetchOutcome.ok s) idElapsed profile consumers
      workDuration fuel).2 = LoopExit.timedOut ∧
    trialResult (run_benchmark host (fun _ => FetchOutcome.ok s) idElapsed profile
      consumers workDuration fuel).2 = some 0 := by
  have hx : extractTotal s = none := by simp [extractTotal, hc, hn]
  have h := run_noMarker host (fun _ => FetchOutcome.ok s) idElapsed profile
    consumers workDuration fuel (fun _ => ⟨s, rfl, hx⟩) (fun _ => rfl) hfu
  exact ⟨h.1, h.2.1⟩

/-- Witness for C6's amended theorem at the concrete malformed log
`TOTAL_TIME_MS: abc`. -/
theorem C6_malformed_w :
    (run_benchmark host0 (fun _ => FetchOutcome.ok malformedLog) idElapsed ("lua")
      5 50 62).2 = LoopExit.timedOut ∧
    trialResult (run_benchmark host0 (fun _ => FetchOutcome.ok malformedLog) idElapsed
      ("lua") 5 50 62).2 = some 0 :=
  C6_malformed host0 ("lua") 5 50 62 malformedLog (by omega) (by decide) (by decide)

/-- C6 counterexample: the concrete malformed log `TOTAL_TIME_MS: abc`
(marker text present, integer unparsable) does not fail the trial hard: the
trial ends in the ordinary timeout exit with result 0, and no exception
path (`raised`) is taken. -/
theorem C6_cex :
    containsSub markerC malformedLog = true ∧
    searchTotalTime malformedLog = none ∧
    (run_benchmark host0 malformedFetch idElapsed ("lua") 5 50 62).2 =
      LoopExit.timedOut ∧
    trialResult (run_benchmark host0 malformedFetch idElapsed ("lua") 5 50 62).2 =
      some 0 := by
  decide

/-! ### Scenario row (claim C7) -/

/-- C7: for the sweep over `consumerCounts = [5]` at 50ms work, with Lua
logs immediately carrying `TOTAL_TIME_MS: 120` and Redlock logs
`TOTAL_TIME_MS: 300`, the single report row holds exactly the values `5`,
`120`, `300` and `150%`, and the printed row renders the difference with
two decimals as `150.00`. -/
theorem C7_scenario :
    (sweepLoop host0 scenarioBackend 50 62 [5]).2.1 = [(5, 120, 300, (150 : ℚ))] ∧
    fmtFixed2 (150 : ℚ) = "150.00" ∧
    formatRow 5 120 300 (150 : ℚ) =
      "5          | 120        | 300             |   150.00%" ∧
    formatRow 5 120 300 (150 : ℚ) ∈
      outputs (sweepLoop host0 scenarioBackend 50 62 [5]).1 := by
  have h120 : extractTotal (("TOTAL_TIME_MS: 120").toList) = some 120 := by decide
  have h300 : extractTotal (("TOTAL_TIME_MS: 300").toList) = some 300 := by decide
  have hL := pollLoop_found_first (scenarioBackend.fetch profileLua 5)
    (scenarioBackend.elapsed profileLua 5) ("app-" ++ profileLua) profileLua
    (trialEnv host0 5 50) 62 0 (("TOTAL_TIME_MS: 120").toList) 120 (by omega) rfl h120
  have hR := pollLoop_found_first (scenarioBackend.fetch profileRed 5)
    (scenarioBackend.elapsed profileRed 5) ("app-" ++ profileRed) profileRed
    (trialEnv host0 5 50) 62 0 (("TOTAL_TIME_MS: 300").toList) 300 (by omega) rfl h300
  have hLt : trialResult (run_benchmark host0 (scenarioBackend.fetch profileLua 5)
      (scenarioBackend.elapsed profileLua 5) profileLua 5 50 62).2 = some 120 := by
    rw [run_benchmark_snd, hL]; rfl
  have hRt : trialResult (run_benchmark host0 (scenarioBackend.fetch profileRed 5)
      (scenarioBackend.elapsed profileRed 5) profileRed 5 50 62).2 = some 300 := by
    rw [run_benchmark_snd, hR]; rfl
  have hpd : percentDiff 120 300 = 150 := by norm_num [percentDiff]
  have hfmt : fmtFixed2 (150 : ℚ) = "150.00" := by
    norm_num [fmtFixed2]
    rfl
  refine ⟨?_, hfmt, ?_, ?_⟩
  · simp only [sweepLoop, hLt, hRt, hpd]
  · rw [formatRow, hfmt]; rfl
  · simp only [sweepLoop, hLt, hRt, hpd]
    simp [outputs, List.filterMap_append]

/-! ### Sweep ordering (claim C8) -/

/-- C8: whenever every trial returns a value, the sweep's action trace is
exactly the per-count segments concatenated in the declared order of the
concurrency levels, where each segment is the whole Lua trial (ending in
its teardown), then the whole Redlock trial, then the row print — so rows
are emitted in declared order and the Lua trial completes before the
Redlock trial begins at each level; the report lists the counts in the
declared order. -/
theorem C8_ordering (host : EnvF) (B : Backend) (workDuration fuel : Nat)
    (lv rv : Nat → Nat)
    (hl : ∀ c, trialResult (run_benchmark host (B.fetch profileLua c)
      (B.elapsed profileLua c) profileLua c workDuration fuel).2 = some (lv c))
    (hr : ∀ c, trialResult (run_benchmark host (B.fetch profileRed c)
      (B.elapsed profileRed c) profileRed c workDuration fuel).2 = some (rv c)) :
    ∀ counts : List Nat,
      (sweepLoop host B workDuration fuel counts).1 =
        (counts.map (fun c =>
          (run_benchmark host (B.fetch profileLua c) (B.elapsed profileLua c)
            profileLua c workDuration fuel).1 ++
          (run_benchmark host (B.fetch profileRed c) (B.elapsed profileRed c)
            profileRed c workDuration fuel).1 ++
          [Act.echo (formatRow c (lv c) (rv c) (percentDiff (lv c) (rv c)))])).flatten ∧
      ((sweepLoop host B workDuration fuel counts).2.1).map (fun r => r.1) = counts := by
  intro counts
  induction counts with
  | nil => exact ⟨rfl, rfl⟩
  | cons c rest ih =>
    simp only [sweepLoop, hl c, hr c, List.map_cons, List.flatten_cons]
    constructor
    · rw [ih.1]
      simp [List.append_assoc]
    · simp [ih.2]

/-- Witness for C8: a one-level sweep over an always-succeeding backend
reports the declared count. -/
theorem C8_ordering_w :
    ((sweepLoop host0 okBackend 50 62 [5]).2.1).map (fun r => r.1) = [5] := by
  have hone : ∀ p c, trialResult (run_benchmark host0 (okBackend.fetch p c)
      (okBackend.elapsed p c) p c 50 62).2 = some 7 := fun p c => by
    rw [run_benchmark_snd, pollLoop_found_first (okBackend.fetch p c)
      (okBackend.elapsed p c) ("app-" ++ p) p (trialEnv host0 c 50) 62 0
      (("TOTAL_TIME_MS: 7").toList) 7 (by omega) rfl (by decide)]
    rfl
  exact (C8_ordering host0 okBackend 50 62 (fun _ => 7) (fun _ => 7)
    (fun c => hone profileLua c) (fun c => hone profileRed c) [5]).2

/-! ### Trial environment (claim C10) -/

/-- C10: every backend invocation of a trial — the reset `down`, the `up`,
every log fetch, and the teardown `down` — receives one and the same
environment: the copy of the host environment extended with `NUM_CONSUMERS`
and `WORK_DURATION` bound to the decimal renderings of the trial's consumer
count and work duration; the extension reads back those two keys and leaves
every other key exactly as in the host environment, which is itself never
mutated (the trial only builds and passes this copy). -/
theorem C10_environment (host : EnvF) (fetch : Nat → FetchOutcome) (elapsed : Nat → ℚ)
    (profile : String) (consumers workDuration fuel : Nat) :
    (∀ a ∈ (run_benchmark host fetch elapsed profile consumers workDuration fuel).1,
      backendEnv a = none ∨
      backendEnv a = some (trialEnv host consumers workDuration)) ∧
    trialEnv host consumers workDuration keyConsumers = some (toString consumers) ∧
    trialEnv host consumers workDuration keyWork = some (toString workDuration) ∧
    (∀ k, k ≠ keyConsumers → k ≠ keyWork →
      trialEnv host consumers workDuration k = host k) := by
  refine ⟨?_, ?_, ?_, ?_⟩
  · intro a ha
    rw [run_benchmark_fst] at ha
    rcases List.mem_append.mp ha with hpl | hpost
    · rcases List.mem_append.mp hpl with hpre | hloop
      · simp only [List.mem_cons, List.mem_singleton] at hpre
        rcases hpre with h | h | h | h
        · exact Or.inl (by rw [h]; rfl)
        · exact Or.inr (by rw [h]; rfl)
        · exact Or.inr (by rw [h]; rfl)
        · exact absurd h (by simp)
      · rcases pollLoop_shape fetch elapsed ("app-" ++ profile) profile
          (trialEnv host consumers workDuration) fuel 0 a hloop with h | h | h
        · exact Or.inr (by rw [h]; rfl)
        · exact Or.inl (by rw [h]; rfl)
        · exact Or.inl (by rw [h]; rfl)
    · revert hpost
      cases (pollLoop fetch elapsed ("app-" ++ profile) profile
          (trialEnv host consumers workDuration) fuel 0).2 with
      | found n =>
        intro hpost
        simp only [List.mem_singleton] at hpost
        exact Or.inr (by rw [hpost]; rfl)
      | timedOut =>
        intro hpost
        simp only [List.mem_singleton] at hpost
        exact Or.inr (by rw [hpost]; rfl)
      | raised => intro hpost; exact absurd hpost (by simp)
      | fuelOut => intro hpost; exact absurd hpost (by simp)
  · simp [trialEnv, envSet]
    intro hcontra
    exact absurd hcontra (by decide)
  · simp [trialEnv, envSet]
  · intro k h1 h2
    simp only [trialEnv, envSet]
    rw [if_neg h2, if_neg h1]

/-- Witness for C10 at a concrete trial: the `up` invocation carries the
extended copy, the two keys read back `5` and `50`, and an unrelated key
reads through to the host environment. -/
theorem C10_environment_w :
    backendEnv (Act.composeUp ("lua") (trialEnv host0 5 50)) =
      some (trialEnv host0 5 50) ∧
    trialEnv host0 5 50 keyConsumers = some (toString 5) ∧
    trialEnv host0 5 50 ("PATH") = host0 ("PATH") := by
  have h := C10_environment host0 okFetch7 zeroElapsed ("lua") 5 50 1
  refine ⟨?_, h.2.1, h.2.2.2 ("PATH") (by decide) (by decide)⟩
  have hm : Act.composeUp ("lua") (trialEnv host0 5 50) ∈
      (run_benchmark host0 okFetch7 zeroElapsed ("lua") 5 50 1).1 := by
    rw [run_benchmark_fst]
    exact List.mem_append.mpr (Or.inl (List.mem_append.mpr (Or.inl (by simp))))
  rcases h.1 _ hm with hc | hc
  · exact absurd hc (by simp [backendEnv])
  · exact hc

end DistLocks
